import Mathlib

/-!
Verification of the FoodXchange retailer comparison core and the frontend
helpers around it.

Money is represented in integer cents (an exact embedding of the 2-decimal
price strings used throughout the repository), and completeness percentages
in integer tenths of a percent (an exact embedding of the one-decimal
percentage values of the comparison output).  Rational numbers appear only
in specification statements (for the rounding formula), never in the
executable model.
-/

open List

deriving instance DecidableEq for Except

namespace FoodX

/-- An offer: one retailer priced, stock-flagged listing of one product
(the ProductPrice through-model of the repository, fields as in the
frontend ProductPrice interface and the spec Offer entity).  Prices are in
cents; sale_price is none when the backend sends null. -/
structure Offer where
  product_id : Nat
  retailer_id : Nat
  price : Int
  is_on_sale : Bool
  sale_price : Option Int
  in_stock : Bool
deriving DecidableEq, Repr

/-- A shopping list item: product reference plus quantity. -/
structure ShoppingListItem where
  product_id : Nat
  quantity : Nat
deriving DecidableEq, Repr

/-- Error raised when a comparison has no candidate retailer at all. -/
structure EmptyComparisonError where
deriving DecidableEq, Repr

/-- Data-integrity error for a single malformed offer; carries the
offending offer. -/
structure InvalidOfferError where
  offender : Offer
deriving DecidableEq, Repr

/-- Modelled from the spec: the Effective Price Resolver (backend
shopping/services.py is not part of the sources here; section 4.1 of the
spec defines it).  Returns sale_price when the offer is on sale and the
sale price is present, nonnegative and at most the base price; fails with
InvalidOfferError when is_on_sale is true but sale_price is absent or
exceeds base price; otherwise returns the base price. -/
def effective_price (o : Offer) : Except InvalidOfferError Int :=
  if o.is_on_sale then
    match o.sale_price with
    | none => .error ⟨o⟩
    | some sp =>
      if sp ≤ o.price then
        (if 0 ≤ sp then .ok sp else .ok o.price)
      else .error ⟨o⟩
  else .ok o.price

/-- The price shown on the FoodXScreen price row
(frontend FoodXScreen.tsx: the expression sale_price ?? price). -/
def displayed_price (o : Offer) : Int :=
  o.sale_price.getD o.price

/-- Decimal digit character. -/
def digit_char (d : Nat) : Char := Char.ofNat (48 + d)

/-- Digits of a natural number, most significant first (first argument is
fuel, called with fuel larger than the number). -/
def nat_digits : Nat → Nat → List Char
  | 0, _ => []
  | fuel + 1, n =>
    if n < 10 then [digit_char n]
    else nat_digits fuel (n / 10) ++ [digit_char (n % 10)]

/-- Decimal string of a natural number. -/
def nat_str (n : Nat) : String := String.mk (nat_digits (n + 1) n)

/-- Fixed two-decimal string for an amount in cents: the shallow model of
JavaScript Number.prototype.toFixed(2) on exact cent amounts. -/
def format_price (cents : Int) : String :=
  (if cents < 0 then "-" else "")
    ++ nat_str (cents.natAbs / 100) ++ "."
    ++ (if cents.natAbs % 100 < 10 then "0" else "")
    ++ nat_str (cents.natAbs % 100)

/-- A shopping list item as the Pantry screen sees it: a quantity plus the
product field lowest_price (none when the product has no lowest_price).
Prices in cents. -/
structure PantryItem where
  quantity : Nat
  lowest_price : Option Int
deriving DecidableEq, Repr

/-- The contribution of one item to the Pantry screen estimated total:
lowest price times quantity, zero when lowest_price is absent
(frontend PantryScreen.tsx getTotalCost reduce step). -/
def pantry_contribution (it : PantryItem) : Int :=
  (it.lowest_price.getD 0) * it.quantity

/-- PantryScreen.tsx getTotalCost: none models an absent items array; the
reduce over items adds lowest_price times quantity, counting items without
lowest_price as zero, then formats with toFixed(2). -/
def getTotalCost (items : Option (List PantryItem)) : String :=
  match items with
  | none => "0.00"
  | some l => format_price (l.foldl (fun sum it => sum + pantry_contribution it) 0)

/-- The search store update addRecentSearch (frontend store index.ts):
put the query first, drop previous copies of it, keep at most 10. -/
def addRecentSearch (query : String) (recentSearches : List String) : List String :=
  (query :: recentSearches.filter (fun s => s ≠ query)).take 10

/-- State of recentSearches after a sequence of addRecentSearch calls
starting from the initial empty store. -/
def recent_after (queries : List String) : List String :=
  queries.foldl (fun acc q => addRecentSearch q acc) []

/-- A retailer scorecard, the per-retailer record computed by one
comparison run (the RetailerComparison shape of the frontend api.ts).
completeness_tenths holds the one-decimal completeness percentage scaled
by 10; total_cost is in cents. -/
structure Scorecard where
  retailer_id : Nat
  retailer_name : String
  available_items : Nat
  total_items : Nat
  completeness_tenths : Nat
  total_cost : Int
  is_most_complete : Bool
  is_cheapest : Bool
deriving DecidableEq, Repr

/-- Modelled from the spec: an offer is usable for the tally when it is in
stock and the Effective Price Resolver accepts it (section 4.2: invalid or
out-of-stock offers contribute nothing). -/
def usable_offer (o : Offer) : Bool :=
  match effective_price o with
  | .ok _ => o.in_stock
  | .error _ => false

/-- The price actually paid for a usable offer (the ok value of the
resolver; the base price is a dummy for unusable offers, which the
aggregator never charges). -/
def resolved_price (o : Offer) : Int :=
  match effective_price o with
  | .ok p => p
  | .error _ => o.price

/-- Modelled from the spec: look up the offer a given retailer has for a
given product in the snapshot (the Price Catalog holds one entry per
retailer and product). -/
def offer_for (offers : List Offer) (rid pid : Nat) : Option Offer :=
  offers.find? (fun o => o.retailer_id == rid && o.product_id == pid)

/-- Modelled from the spec: whether a retailer can fulfill one list item
(an in-stock, valid offer for the product exists). -/
def item_available (offers : List Offer) (rid : Nat) (it : ShoppingListItem) : Bool :=
  match offer_for offers rid it.product_id with
  | some o => usable_offer o
  | none => false

/-- Modelled from the spec: what one list item adds to a retailer running
total - quantity times effective price for a usable offer, nothing
otherwise. -/
def item_cost (offers : List Offer) (rid : Nat) (it : ShoppingListItem) : Int :=
  match offer_for offers rid it.product_id with
  | some o => if usable_offer o then (it.quantity : Int) * resolved_price o else 0
  | none => 0

/-- Modelled from the spec: number of list items the retailer can fulfill. -/
def available_items (items : List ShoppingListItem) (offers : List Offer) (rid : Nat) : Nat :=
  items.countP (item_available offers rid)

/-- Modelled from the spec: the retailer total cost over fulfillable
items, in cents. -/
def total_cost (items : List ShoppingListItem) (offers : List Offer) (rid : Nat) : Int :=
  (items.map (item_cost offers rid)).sum

/-- Modelled from the spec: the retailers appearing in any offer,
enumerated in a stable order (deduplicated ids, sorted ascending). -/
def candidate_retailers (offers : List Offer) : List Nat :=
  ((offers.map Offer.retailer_id).dedup).insertionSort (· ≤ ·)

/-- Modelled from the spec: completeness percentage in tenths of a
percent, round(100 * available / total, 1) scaled by 10, with the
convention that an empty list gives 0 instead of dividing by zero.
Computed as a floor of (2000 a + t) / (2 t), which equals the rounding of
1000 a / t to the nearest integer. -/
def completeness_tenths (avail total : Nat) : Nat :=
  if total = 0 then 0 else (2000 * avail + total) / (2 * total)

/-- Modelled from the spec: the unranked scorecard of one retailer
(flags still false); the display name comes from the retailer directory. -/
def mk_scorecard (items : List ShoppingListItem) (offers : List Offer)
    (names : Nat → String) (rid : Nat) : Scorecard :=
  { retailer_id := rid
    retailer_name := names rid
    available_items := available_items items offers rid
    total_items := items.length
    completeness_tenths := completeness_tenths (available_items items offers rid) items.length
    total_cost := total_cost items offers rid
    is_most_complete := false
    is_cheapest := false }

/-- Modelled from the spec: the Retailer Aggregator output - one scorecard
per retailer that fulfills at least one item, ranking flags not yet set. -/
def build_scorecards (items : List ShoppingListItem) (offers : List Offer)
    (names : Nat → String) : List Scorecard :=
  (candidate_retailers offers).filterMap (fun rid =>
    if available_items items offers rid = 0 then none
    else some (mk_scorecard items offers names rid))

/-- Lowercased character list of a retailer name, the case-insensitive
sort key of the Ranker. -/
def lower_name (s : String) : List Char :=
  s.data.map Char.toLower

/-- Lexicographic combination of a strict first key with a relation on the
remaining keys. -/
def lex_le {α β : Type} [LT α] (le2 : β → β → Prop) (p q : α × β) : Prop :=
  p.1 < q.1 ∨ (p.1 = q.1 ∧ le2 p.2 q.2)

instance lex_le_dec {α β : Type} [LinearOrder α] (le2 : β → β → Prop)
    [DecidableRel le2] : DecidableRel (@lex_le α β _ le2) := fun p q =>
  inferInstanceAs (Decidable (p.1 < q.1 ∨ (p.1 = q.1 ∧ le2 p.2 q.2)))

/-- Modelled from the spec: the Ranker sort key - completeness descending
(negated), then total cost ascending, then case-insensitive retailer name,
then retailer id. -/
def rank_key (s : Scorecard) : Int × Int × List Char × Nat :=
  (-(s.completeness_tenths : Int), s.total_cost, lower_name s.retailer_name, s.retailer_id)

/-- Order on the name and id tail of the sort key. -/
def name_id_le (p q : List Char × Nat) : Prop :=
  @lex_le (List Char) Nat _ (fun m n => m ≤ n) p q

/-- Order on the cost, name and id tail of the sort key. -/
def cost_name_id_le (p q : Int × List Char × Nat) : Prop :=
  lex_le name_id_le p q

/-- Modelled from the spec: the Ranker order on scorecards, lexicographic
on rank_key. -/
def rank_le (a b : Scorecard) : Prop :=
  lex_le cost_name_id_le (rank_key a) (rank_key b)

instance name_id_le_dec : DecidableRel name_id_le := fun p q =>
  inferInstanceAs (Decidable (lex_le ((· ≤ ·) : Nat → Nat → Prop) p q))

instance cost_name_id_le_dec : DecidableRel cost_name_id_le := fun p q =>
  inferInstanceAs (Decidable (lex_le name_id_le p q))

instance rank_le_dec : DecidableRel rank_le := fun a b =>
  inferInstanceAs (Decidable (lex_le cost_name_id_le (rank_key a) (rank_key b)))

/-- The maximum completeness present in a set of scorecards. -/
def max_completeness (l : List Scorecard) : WithBot Nat :=
  (l.map Scorecard.completeness_tenths).maximum

/-- The minimum total cost among the scorecards at the maximum
completeness of the set. -/
def min_top_cost (l : List Scorecard) : WithTop Int :=
  ((l.filter (fun s =>
      decide ((s.completeness_tenths : WithBot Nat) = max_completeness l))).map
    Scorecard.total_cost).minimum

/-- Set the two best flags of one scorecard from the maximum completeness
and the minimum top-tier cost of the whole set. -/
def flag_with (maxc : WithBot Nat) (minc : WithTop Int) (s : Scorecard) : Scorecard :=
  { s with
    is_most_complete := decide ((s.completeness_tenths : WithBot Nat) = maxc)
    is_cheapest := decide ((s.completeness_tenths : WithBot Nat) = maxc)
      && decide ((s.total_cost : WithTop Int) = minc) }

/-- Modelled from the spec: annotate the best flags - is_most_complete on
every scorecard at the maximum completeness present, is_cheapest on the
minimum total cost among those. -/
def set_flags (l : List Scorecard) : List Scorecard :=
  l.map (flag_with (max_completeness l) (min_top_cost l))

/-- Modelled from the spec: the compare operation of the comparison core
(backend ShoppingListComparisonService, absent from the sources here) -
aggregate, fail fast with EmptyComparisonError when there is no candidate
retailer, otherwise sort by the two-key policy and annotate flags. -/
def compare_prices (items : List ShoppingListItem) (offers : List Offer)
    (names : Nat → String) : Except EmptyComparisonError (List Scorecard) :=
  let cards := build_scorecards items offers names
  if cards = [] then .error ⟨⟩
  else .ok (set_flags (cards.insertionSort rank_le))

/-- Snapshot well-formedness: the Price Catalog holds at most one offer
per retailer and product pair. -/
def wf_offers (offers : List Offer) : Prop :=
  ∀ o ∈ offers, ∀ o' ∈ offers,
    o.retailer_id = o'.retailer_id → o.product_id = o'.product_id → o = o'

instance wf_offers_dec (offers : List Offer) : Decidable (wf_offers offers) :=
  inferInstanceAs (Decidable (∀ o ∈ offers, ∀ o' ∈ offers,
    o.retailer_id = o'.retailer_id → o.product_id = o'.product_id → o = o'))

/-- Scenario A shopping list: Milk x1, Bread x1, Cheese x1 (products 1-3). -/
def items_a : List ShoppingListItem := [⟨1, 1⟩, ⟨2, 1⟩, ⟨3, 1⟩]

/-- Scenario A offers: BudgetMart (retailer 1) stocks all three for 8.50
total, FreshFoods (retailer 2) stocks Milk and Bread for 7.00, SuperStore
(retailer 3) stocks all three for 9.20. -/
def offers_a : List Offer :=
  [⟨1, 1, 250, false, none, true⟩, ⟨2, 1, 300, false, none, true⟩,
   ⟨3, 1, 300, false, none, true⟩,
   ⟨1, 2, 350, false, none, true⟩, ⟨2, 2, 350, false, none, true⟩,
   ⟨1, 3, 320, false, none, true⟩, ⟨2, 3, 300, false, none, true⟩,
   ⟨3, 3, 300, false, none, true⟩]

/-- Retailer directory of the test scenarios. -/
def names_a : Nat → String := fun rid =>
  if rid = 1 then "BudgetMart"
  else if rid = 2 then "FreshFoods"
  else if rid = 3 then "SuperStore"
  else ""

/-- Expected ranked output of Scenario A. -/
def out_a : List Scorecard :=
  [⟨1, "BudgetMart", 3, 3, 1000, 850, true, true⟩,
   ⟨3, "SuperStore", 3, 3, 1000, 920, true, false⟩,
   ⟨2, "FreshFoods", 2, 3, 667, 700, false, false⟩]

/-- The BudgetMart scorecard of Scenario A. -/
def card_bm : Scorecard := ⟨1, "BudgetMart", 3, 3, 1000, 850, true, true⟩

/-- Scenario B shopping list: one product. -/
def items_b : List ShoppingListItem := [⟨1, 1⟩]

/-- Scenario B offers: retailer 1 has a valid offer; retailer 9 has only
an invalid offer (on sale with no sale price). -/
def offers_b : List Offer :=
  [⟨1, 1, 250, false, none, true⟩, ⟨1, 9, 100, true, none, true⟩]

/-- Expected output of Scenario B: retailer 9 is absent. -/
def out_b : List Scorecard := [⟨1, "BudgetMart", 1, 1, 1000, 250, true, true⟩]

theorem lex_le_total' {α β : Type} [LinearOrder α] (le2 : β → β → Prop)
    (h2 : ∀ x y, le2 x y ∨ le2 y x) (p q : α × β) :
    lex_le le2 p q ∨ lex_le le2 q p := by
  rcases lt_trichotomy p.1 q.1 with h | h | h
  · exact Or.inl (Or.inl h)
  · rcases h2 p.2 q.2 with h' | h'
    · exact Or.inl (Or.inr ⟨h, h'⟩)
    · exact Or.inr (Or.inr ⟨h.symm, h'⟩)
  · exact Or.inr (Or.inl h)

theorem lex_le_trans' {α β : Type} [LinearOrder α] (le2 : β → β → Prop)
    (h2 : ∀ x y z, le2 x y → le2 y z → le2 x z) (p q r : α × β) :
    lex_le le2 p q → lex_le le2 q r → lex_le le2 p r := by
  rintro (h | ⟨he, hr⟩) (h' | ⟨he', hr'⟩)
  · exact Or.inl (lt_trans h h')
  · exact Or.inl (he' ▸ h)
  · exact Or.inl (he ▸ h')
  · exact Or.inr ⟨he.trans he', h2 _ _ _ hr hr'⟩

theorem lex_le_antisymm' {α β : Type} [LinearOrder α] (le2 : β → β → Prop)
    (h2 : ∀ x y, le2 x y → le2 y x → x = y) (p q : α × β) :
    lex_le le2 p q → lex_le le2 q p → p = q := by
  rintro (h | ⟨he, hr⟩) (h' | ⟨he', hr'⟩)
  · exact absurd h' (lt_asymm h)
  · exact absurd he' (ne_of_gt h)
  · exact absurd he (ne_of_gt h')
  · exact Prod.ext he (h2 _ _ hr hr')

theorem name_id_le_total (p q : List Char × Nat) : name_id_le p q ∨ name_id_le q p :=
  @lex_le_total' (List Char) Nat _ (fun m n => m ≤ n) (fun x y => Nat.le_total x y) p q

theorem name_id_le_trans (p q r : List Char × Nat) :
    name_id_le p q → name_id_le q r → name_id_le p r :=
  @lex_le_trans' (List Char) Nat _ (fun m n => m ≤ n)
    (fun _ _ _ h h' => Nat.le_trans h h') p q r

theorem name_id_le_antisymm (p q : List Char × Nat) :
    name_id_le p q → name_id_le q p → p = q :=
  @lex_le_antisymm' (List Char) Nat _ (fun m n => m ≤ n)
    (fun _ _ h h' => Nat.le_antisymm h h') p q

theorem cost_name_id_le_total (p q : Int × List Char × Nat) :
    cost_name_id_le p q ∨ cost_name_id_le q p :=
  lex_le_total' _ name_id_le_total p q

theorem cost_name_id_le_trans (p q r : Int × List Char × Nat) :
    cost_name_id_le p q → cost_name_id_le q r → cost_name_id_le p r :=
  lex_le_trans' _ name_id_le_trans p q r

theorem cost_name_id_le_antisymm (p q : Int × List Char × Nat) :
    cost_name_id_le p q → cost_name_id_le q p → p = q :=
  lex_le_antisymm' _ name_id_le_antisymm p q

theorem rank_le_total (a b : Scorecard) : rank_le a b ∨ rank_le b a :=
  lex_le_total' _ cost_name_id_le_total (rank_key a) (rank_key b)

theorem rank_le_trans (a b c : Scorecard) : rank_le a b → rank_le b c → rank_le a c :=
  lex_le_trans' _ cost_name_id_le_trans (rank_key a) (rank_key b) (rank_key c)

theorem rank_le_key_antisymm (a b : Scorecard) :
    rank_le a b → rank_le b a → rank_key a = rank_key b :=
  lex_le_antisymm' _ cost_name_id_le_antisymm (rank_key a) (rank_key b)

instance rank_le_is_total : IsTotal Scorecard rank_le := ⟨rank_le_total⟩

instance rank_le_is_trans : IsTrans Scorecard rank_le := ⟨rank_le_trans⟩

theorem find?_perm_of_unique {α : Type} (p : α → Bool) {l l' : List α} (h : l ~ l')
    (hu : ∀ a ∈ l, ∀ b ∈ l, p a → p b → a = b) : l.find? p = l'.find? p := by
  cases hf : l.find? p with
  | none =>
    rw [List.find?_eq_none] at hf
    symm
    rw [List.find?_eq_none]
    intro x hx
    exact hf x (h.mem_iff.mpr hx)
  | some x =>
    have hx : x ∈ l := List.mem_of_find?_eq_some hf
    have hpx : p x := List.find?_some hf
    have hs : (l'.find? p).isSome := List.find?_isSome.mpr ⟨x, h.mem_iff.mp hx, hpx⟩
    obtain ⟨y, hy⟩ := Option.isSome_iff_exists.mp hs
    have hyl : y ∈ l := h.mem_iff.mpr (List.mem_of_find?_eq_some hy)
    have hpy : p y := List.find?_some hy
    rw [hy, hu y hyl x hx hpy hpx]

theorem offer_for_eq_some {offers : List Offer} {rid pid : Nat} {o : Offer}
    (h : offer_for offers rid pid = some o) :
    o ∈ offers ∧ o.retailer_id = rid ∧ o.product_id = pid := by
  have hm := List.mem_of_find?_eq_some h
  have hp := List.find?_some h
  simp only [Bool.and_eq_true, beq_iff_eq] at hp
  exact ⟨hm, hp.1, hp.2⟩

theorem offer_for_of_mem {offers : List Offer} {rid pid : Nat} {o : Offer}
    (hwf : wf_offers offers) (ho : o ∈ offers) (h1 : o.retailer_id = rid)
    (h2 : o.product_id = pid) : offer_for offers rid pid = some o := by
  have hs : ((offers.find? (fun o => o.retailer_id == rid && o.product_id == pid))).isSome := by
    refine List.find?_isSome.mpr ⟨o, ho, ?_⟩
    simp [h1, h2]
  obtain ⟨y, hy⟩ := Option.isSome_iff_exists.mp hs
  have hyl : y ∈ offers := List.mem_of_find?_eq_some hy
  have hpy := List.find?_some hy
  simp only [Bool.and_eq_true, beq_iff_eq] at hpy
  have : y = o := hwf y hyl o ho (hpy.1.trans h1.symm) (hpy.2.trans h2.symm)
  rw [offer_for, hy, this]

theorem offer_for_perm {offers offers' : List Offer} (h : offers ~ offers')
    (hwf : wf_offers offers) (rid pid : Nat) :
    offer_for offers rid pid = offer_for offers' rid pid := by
  refine find?_perm_of_unique _ h ?_
  intro a ha b hb hpa hpb
  simp only [Bool.and_eq_true, beq_iff_eq] at hpa hpb
  exact hwf a ha b hb (hpa.1.trans hpb.1.symm) (hpa.2.trans hpb.2.symm)

theorem wf_offers_perm {offers offers' : List Offer} (h : offers ~ offers')
    (hwf : wf_offers offers) : wf_offers offers' := fun o ho o' ho' h1 h2 =>
  hwf o (h.mem_iff.mpr ho) o' (h.mem_iff.mpr ho') h1 h2

theorem available_items_le_length (items : List ShoppingListItem) (offers : List Offer)
    (rid : Nat) : available_items items offers rid ≤ items.length :=
  List.countP_le_length _

theorem available_items_eq_zero_of_not_mem {offers : List Offer} {rid : Nat}
    (h : rid ∉ offers.map Offer.retailer_id) (items : List ShoppingListItem) :
    available_items items offers rid = 0 := by
  rw [available_items, List.countP_eq_zero]
  intro it _
  have hnone : offer_for offers rid it.product_id = none := by
    rw [offer_for, List.find?_eq_none]
    intro o ho hp
    simp only [Bool.and_eq_true, beq_iff_eq] at hp
    exact h (List.mem_map.mpr ⟨o, ho, hp.1⟩)
  simp [item_available, hnone]

theorem available_items_pos {items : List ShoppingListItem} {offers : List Offer}
    {rid : Nat} {it : ShoppingListItem} {o : Offer} (hwf : wf_offers offers)
    (hi : it ∈ items) (ho : o ∈ offers) (hr : o.retailer_id = rid)
    (hp : o.product_id = it.product_id) (hu : usable_offer o = true) :
    0 < available_items items offers rid := by
  rw [available_items, List.countP_pos_iff]
  refine ⟨it, hi, ?_⟩
  rw [item_available, offer_for_of_mem hwf ho hr hp]
  exact hu

theorem resolved_price_nonneg {o : Offer} (h : 0 ≤ o.price) : 0 ≤ resolved_price o := by
  cases hos : o.is_on_sale with
  | false => simp [resolved_price, effective_price, hos, h]
  | true =>
    cases hsp : o.sale_price with
    | none => simp [resolved_price, effective_price, hos, hsp, h]
    | some sp =>
      by_cases h1 : sp ≤ o.price
      · by_cases h2 : 0 ≤ sp
        · simp [resolved_price, effective_price, hos, hsp, h1, h2]
        · simp [resolved_price, effective_price, hos, hsp, h1, h2, h]
      · simp [resolved_price, effective_price, hos, hsp, h1, h]

theorem item_cost_nonneg {offers : List Offer} {rid : Nat}
    (hprice : ∀ o ∈ offers, 0 ≤ o.price) (it : ShoppingListItem) :
    0 ≤ item_cost offers rid it := by
  rw [item_cost]
  cases hof : offer_for offers rid it.product_id with
  | none => simp
  | some o =>
    have ho : o ∈ offers := (offer_for_eq_some hof).1
    have := resolved_price_nonneg (hprice o ho)
    simp only
    split
    · positivity
    · exact le_refl 0

theorem total_cost_nonneg {items : List ShoppingListItem} {offers : List Offer} {rid : Nat}
    (hprice : ∀ o ∈ offers, 0 ≤ o.price) : 0 ≤ total_cost items offers rid := by
  refine List.sum_nonneg ?_
  intro x hx
  obtain ⟨it, _, rfl⟩ := List.mem_map.mp hx
  exact item_cost_nonneg hprice it

theorem mem_candidate_retailers {offers : List Offer} {rid : Nat} :
    rid ∈ candidate_retailers offers ↔ rid ∈ offers.map Offer.retailer_id := by
  rw [candidate_retailers, List.mem_insertionSort, List.mem_dedup]

theorem candidate_retailers_nodup (offers : List Offer) :
    (candidate_retailers offers).Nodup :=
  ((List.perm_insertionSort _ _).nodup_iff).mpr (List.nodup_dedup _)

theorem candidate_retailers_sorted (offers : List Offer) :
    List.Sorted (· ≤ ·) (candidate_retailers offers) :=
  List.sorted_insertionSort _ _

theorem candidate_retailers_perm {offers offers' : List Offer} (h : offers ~ offers') :
    candidate_retailers offers = candidate_retailers offers' := by
  refine List.eq_of_perm_of_sorted ?_ (candidate_retailers_sorted offers)
    (candidate_retailers_sorted offers')
  calc candidate_retailers offers
      ~ (offers.map Offer.retailer_id).dedup := List.perm_insertionSort _ _
    _ ~ (offers'.map Offer.retailer_id).dedup := ((h.map _).dedup)
    _ ~ candidate_retailers offers' := (List.perm_insertionSort _ _).symm

theorem mem_build_scorecards {items : List ShoppingListItem} {offers : List Offer}
    {names : Nat → String} {s : Scorecard} :
    s ∈ build_scorecards items offers names ↔
      ∃ rid, rid ∈ candidate_retailers offers ∧ available_items items offers rid ≠ 0 ∧
        s = mk_scorecard items offers names rid := by
  rw [build_scorecards, List.mem_filterMap]
  constructor
  · rintro ⟨rid, hrid, hf⟩
    by_cases h0 : available_items items offers rid = 0
    · simp [h0] at hf
    · rw [if_neg h0] at hf
      exact ⟨rid, hrid, h0, (Option.some_inj.mp hf).symm⟩
  · rintro ⟨rid, hrid, h0, rfl⟩
    exact ⟨rid, hrid, by rw [if_neg h0]⟩

theorem build_scorecards_eq_nil_iff {items : List ShoppingListItem} {offers : List Offer}
    {names : Nat → String} :
    build_scorecards items offers names = [] ↔
      ∀ rid : Nat, available_items items offers rid = 0 := by
  rw [build_scorecards, List.filterMap_eq_nil_iff]
  constructor
  · intro h rid
    by_cases hm : rid ∈ candidate_retailers offers
    · have := h rid hm
      by_cases h0 : available_items items offers rid = 0
      · exact h0
      · simp [h0] at this
    · by_contra h0
      apply hm
      rw [mem_candidate_retailers]
      rw [available_items, List.countP_eq_zero] at h0
      push_neg at h0
      obtain ⟨it, hit, hav⟩ := h0
      rw [item_available] at hav
      cases hof : offer_for offers rid it.product_id with
      | none => rw [hof] at hav; simp at hav
      | some o =>
        obtain ⟨ho, h1, _⟩ := offer_for_eq_some hof
        exact List.mem_map.mpr ⟨o, ho, h1⟩
  · intro h rid _
    rw [if_pos (h rid)]

theorem compare_prices_error_iff {items : List ShoppingListItem} {offers : List Offer}
    {names : Nat → String} :
    compare_prices items offers names = .error ⟨⟩ ↔
      build_scorecards items offers names = [] := by
  rw [compare_prices]
  by_cases h : build_scorecards items offers names = [] <;> simp [h]

theorem compare_prices_ok_iff {items : List ShoppingListItem} {offers : List Offer}
    {names : Nat → String} {l : List Scorecard} :
    compare_prices items offers names = .ok l ↔
      (build_scorecards items offers names ≠ [] ∧
        l = set_flags ((build_scorecards items offers names).insertionSort rank_le)) := by
  rw [compare_prices]
  by_cases h : build_scorecards items offers names = [] <;> simp [h, eq_comm]

theorem completeness_tenths_zero_total (a : Nat) : completeness_tenths a 0 = 0 := by
  rw [completeness_tenths, if_pos rfl]

theorem completeness_tenths_le_1000 {a t : Nat} (h : a ≤ t) :
    completeness_tenths a t ≤ 1000 := by
  rw [completeness_tenths]
  by_cases ht : t = 0
  · simp [ht]
  · rw [if_neg ht]
    have h1 : 2000 * a + t ≤ 2001 * t := by omega
    calc (2000 * a + t) / (2 * t) ≤ (2001 * t) / (2 * t) := Nat.div_le_div_right h1
      _ = 2001 / 2 := Nat.mul_div_mul_right 2001 2 (by omega)
      _ = 1000 := by norm_num

theorem completeness_tenths_eq_round {a t : Nat} (ht : t ≠ 0) :
    (completeness_tenths a t : ℤ) = round ((1000 * a : ℚ) / (t : ℚ)) := by
  have hq : ((t : ℚ)) ≠ 0 := by exact_mod_cast ht
  rw [round_eq]
  have hsum : (1000 * a : ℚ) / (t : ℚ) + 1 / 2 =
      ((2000 * a + t : ℕ) : ℚ) / ((2 * t : ℕ) : ℚ) := by
    push_cast
    field_simp
    ring
  rw [hsum, Rat.floor_natCast_div_natCast, completeness_tenths, if_neg ht]
  exact (Int.ofNat_ediv _ _).symm

theorem flag_with_fields (maxc : WithBot Nat) (minc : WithTop Int) (s : Scorecard) :
    (flag_with maxc minc s).retailer_id = s.retailer_id ∧
    (flag_with maxc minc s).retailer_name = s.retailer_name ∧
    (flag_with maxc minc s).available_items = s.available_items ∧
    (flag_with maxc minc s).total_items = s.total_items ∧
    (flag_with maxc minc s).completeness_tenths = s.completeness_tenths ∧
    (flag_with maxc minc s).total_cost = s.total_cost :=
  ⟨rfl, rfl, rfl, rfl, rfl, rfl⟩

theorem flag_with_is_most_complete (maxc : WithBot Nat) (minc : WithTop Int) (s : Scorecard) :
    (flag_with maxc minc s).is_most_complete =
      decide ((s.completeness_tenths : WithBot Nat) = maxc) := rfl

theorem flag_with_is_cheapest (maxc : WithBot Nat) (minc : WithTop Int) (s : Scorecard) :
    (flag_with maxc minc s).is_cheapest =
      (decide ((s.completeness_tenths : WithBot Nat) = maxc)
        && decide ((s.total_cost : WithTop Int) = minc)) := rfl

theorem rank_key_flag_with (maxc : WithBot Nat) (minc : WithTop Int) (s : Scorecard) :
    rank_key (flag_with maxc minc s) = rank_key s := rfl

theorem flag_with_completeness' (maxc : WithBot Nat) (minc : WithTop Int) (s : Scorecard) :
    (flag_with maxc minc s).completeness_tenths = s.completeness_tenths := rfl

theorem flag_with_total_cost' (maxc : WithBot Nat) (minc : WithTop Int) (s : Scorecard) :
    (flag_with maxc minc s).total_cost = s.total_cost := rfl

theorem set_flags_map_completeness (l : List Scorecard) :
    (set_flags l).map Scorecard.completeness_tenths = l.map Scorecard.completeness_tenths := by
  rw [set_flags, List.map_map]
  rfl

theorem max_completeness_set_flags (l : List Scorecard) :
    max_completeness (set_flags l) = max_completeness l := by
  rw [max_completeness, set_flags_map_completeness, max_completeness]

theorem set_flags_filter_most_complete (l : List Scorecard) :
    (set_flags l).filter (fun s => s.is_most_complete) =
      (l.filter (fun s =>
        decide ((s.completeness_tenths : WithBot Nat) = max_completeness l))).map
        (flag_with (max_completeness l) (min_top_cost l)) := by
  rw [set_flags, List.filter_map]
  rfl

theorem set_flags_filter_decide (l : List Scorecard) :
    (set_flags l).filter (fun s =>
        decide ((s.completeness_tenths : WithBot Nat) = max_completeness l)) =
      (l.filter (fun s =>
        decide ((s.completeness_tenths : WithBot Nat) = max_completeness l))).map
        (flag_with (max_completeness l) (min_top_cost l)) := by
  rw [set_flags, List.filter_map]
  rfl

theorem min_top_cost_set_flags (l : List Scorecard) :
    min_top_cost (set_flags l) = min_top_cost l := by
  rw [min_top_cost, max_completeness_set_flags, set_flags_filter_decide]
  rw [List.map_map, min_top_cost]
  rfl

theorem mem_set_flags {s' : Scorecard} {l : List Scorecard} :
    s' ∈ set_flags l ↔
      ∃ s ∈ l, s' = flag_with (max_completeness l) (min_top_cost l) s := by
  rw [set_flags, List.mem_map]
  constructor
  · rintro ⟨s, hs, rfl⟩
    exact ⟨s, hs, rfl⟩
  · rintro ⟨s, hs, rfl⟩
    exact ⟨s, hs, rfl⟩

theorem sorted_set_flags {l : List Scorecard} (h : List.Sorted rank_le l) :
    List.Sorted rank_le (set_flags l) := by
  rw [set_flags]
  exact List.Pairwise.map _ (fun a b hab => hab) h

theorem compare_ok_mem {items : List ShoppingListItem} {offers : List Offer}
    {names : Nat → String} {l : List Scorecard} {s : Scorecard}
    (hok : compare_prices items offers names = .ok l) (hs : s ∈ l) :
    ∃ rid, rid ∈ candidate_retailers offers ∧ available_items items offers rid ≠ 0 ∧
      s = flag_with
        (max_completeness ((build_scorecards items offers names).insertionSort rank_le))
        (min_top_cost ((build_scorecards items offers names).insertionSort rank_le))
        (mk_scorecard items offers names rid) := by
  obtain ⟨-, rfl⟩ := compare_prices_ok_iff.mp hok
  obtain ⟨t, ht, rfl⟩ := mem_set_flags.mp hs
  rw [List.mem_insertionSort] at ht
  obtain ⟨rid, hrid, h0, rfl⟩ := mem_build_scorecards.mp ht
  exact ⟨rid, hrid, h0, rfl⟩

theorem compare_ok_fields {items : List ShoppingListItem} {offers : List Offer}
    {names : Nat → String} {l : List Scorecard} {s : Scorecard}
    (hok : compare_prices items offers names = .ok l) (hs : s ∈ l) :
    s.available_items = available_items items offers s.retailer_id ∧
    s.total_items = items.length ∧
    s.completeness_tenths = completeness_tenths s.available_items items.length ∧
    s.total_cost = total_cost items offers s.retailer_id ∧
    s.available_items ≠ 0 := by
  obtain ⟨rid, -, h0, rfl⟩ := compare_ok_mem hok hs
  exact ⟨rfl, rfl, rfl, rfl, h0⟩

theorem item_available_iff {offers : List Offer} {rid : Nat} {it : ShoppingListItem} :
    item_available offers rid it = true ↔
      ∃ o, offer_for offers rid it.product_id = some o ∧ usable_offer o = true := by
  rw [item_available]
  cases hof : offer_for offers rid it.product_id with
  | none => simp
  | some o => simp [hof]

theorem effective_price_error_of {o : Offer} (hsale : o.is_on_sale = true)
    (hbad : o.sale_price = none ∨ ∃ sp, o.sale_price = some sp ∧ o.price < sp) :
    effective_price o = .error ⟨o⟩ := by
  rcases hbad with hnone | ⟨sp, hsp, hgt⟩
  · rw [effective_price]
    simp [hsale, hnone]
  · rw [effective_price]
    simp [hsale, hsp, not_le.mpr hgt]

theorem usable_offer_false_of_error {o : Offer} (h : effective_price o = .error ⟨o⟩) :
    usable_offer o = false := by
  rw [usable_offer, h]

theorem map_retailer_id_set_flags (l : List Scorecard) :
    (set_flags l).map Scorecard.retailer_id = l.map Scorecard.retailer_id := by
  rw [set_flags, List.map_map]
  rfl

theorem map_retailer_id_build (items : List ShoppingListItem) (offers : List Offer)
    (names : Nat → String) :
    (build_scorecards items offers names).map Scorecard.retailer_id =
      (candidate_retailers offers).filterMap (fun rid =>
        if available_items items offers rid = 0 then none else some rid) := by
  rw [build_scorecards, List.map_filterMap]
  refine List.filterMap_congr ?_
  intro rid _
  by_cases h : available_items items offers rid = 0 <;> simp [h, mk_scorecard]

theorem build_ids_nodup (items : List ShoppingListItem) (offers : List Offer)
    (names : Nat → String) :
    ((build_scorecards items offers names).map Scorecard.retailer_id).Nodup := by
  rw [map_retailer_id_build]
  refine List.Nodup.filterMap ?_ (candidate_retailers_nodup offers)
  intro a a' b hb hb'
  by_cases h : available_items items offers a = 0
  · simp [h] at hb
  · by_cases h' : available_items items offers a' = 0
    · simp [h'] at hb'
    · simp [h] at hb
      simp [h'] at hb'
      omega

theorem compare_ok_ids_nodup {items : List ShoppingListItem} {offers : List Offer}
    {names : Nat → String} {l : List Scorecard}
    (hok : compare_prices items offers names = .ok l) :
    (l.map Scorecard.retailer_id).Nodup := by
  obtain ⟨-, rfl⟩ := compare_prices_ok_iff.mp hok
  rw [map_retailer_id_set_flags]
  have hperm : ((build_scorecards items offers names).insertionSort rank_le).map
      Scorecard.retailer_id ~ (build_scorecards items offers names).map Scorecard.retailer_id :=
    (List.perm_insertionSort _ _).map _
  exact hperm.nodup_iff.mpr (build_ids_nodup items offers names)

theorem item_available_perm {offers offers' : List Offer} (hperm : offers ~ offers')
    (hwf : wf_offers offers) (rid : Nat) (it : ShoppingListItem) :
    item_available offers rid it = item_available offers' rid it := by
  rw [item_available, item_available, offer_for_perm hperm hwf]

theorem item_cost_perm {offers offers' : List Offer} (hperm : offers ~ offers')
    (hwf : wf_offers offers) (rid : Nat) (it : ShoppingListItem) :
    item_cost offers rid it = item_cost offers' rid it := by
  rw [item_cost, item_cost, offer_for_perm hperm hwf]

theorem available_items_perm {offers offers' : List Offer} (hperm : offers ~ offers')
    (hwf : wf_offers offers) (items : List ShoppingListItem) (rid : Nat) :
    available_items items offers rid = available_items items offers' rid := by
  rw [available_items, available_items]
  refine List.countP_congr ?_
  intro it _
  rw [item_available_perm hperm hwf]

theorem total_cost_perm {offers offers' : List Offer} (hperm : offers ~ offers')
    (hwf : wf_offers offers) (items : List ShoppingListItem) (rid : Nat) :
    total_cost items offers rid = total_cost items offers' rid := by
  rw [total_cost, total_cost]
  congr 1
  refine List.map_congr_left ?_
  intro it _
  exact item_cost_perm hperm hwf rid it

theorem mk_scorecard_perm {offers offers' : List Offer} (hperm : offers ~ offers')
    (hwf : wf_offers offers) (items : List ShoppingListItem) (names : Nat → String)
    (rid : Nat) :
    mk_scorecard items offers names rid = mk_scorecard items offers' names rid := by
  rw [mk_scorecard, mk_scorecard, available_items_perm hperm hwf,
    total_cost_perm hperm hwf]

theorem build_scorecards_perm {offers offers' : List Offer} (hperm : offers ~ offers')
    (hwf : wf_offers offers) (items : List ShoppingListItem) (names : Nat → String) :
    build_scorecards items offers names = build_scorecards items offers' names := by
  rw [build_scorecards, build_scorecards, candidate_retailers_perm hperm]
  refine List.filterMap_congr ?_
  intro rid _
  rw [available_items_perm hperm hwf, mk_scorecard_perm hperm hwf]

theorem pantry_foldl_sum (l : List PantryItem) (init : Int) :
    l.foldl (fun sum it => sum + pantry_contribution it) init =
      init + (l.map pantry_contribution).sum := by
  induction l generalizing init with
  | nil => simp
  | cons a l ih =>
    rw [List.foldl_cons, ih, List.map_cons, List.sum_cons]
    ring

theorem addRecentSearch_nodup (q : String) {l : List String} (h : l.Nodup) :
    (addRecentSearch q l).Nodup := by
  rw [addRecentSearch]
  refine List.Nodup.sublist (List.take_sublist _ _) ?_
  refine List.nodup_cons.mpr ⟨?_, h.filter _⟩
  intro hq
  have := List.of_mem_filter hq
  simp at this

theorem addRecentSearch_length (q : String) (l : List String) :
    (addRecentSearch q l).length ≤ 10 := by
  rw [addRecentSearch, List.length_take]
  exact min_le_left _ _

theorem addRecentSearch_head (q : String) (l : List String) :
    (addRecentSearch q l).head? = some q := rfl

theorem addRecentSearch_count (q : String) (l : List String) :
    (addRecentSearch q l).count q = 1 := by
  rw [addRecentSearch]
  have h10 : (10 : Nat) = 9 + 1 := rfl
  rw [h10, List.take_succ_cons, List.count_cons_self]
  have : q ∉ (l.filter (fun s => s ≠ q)).take 9 := by
    intro hq
    have := List.of_mem_filter (List.take_subset _ _ hq)
    simp at this
  rw [List.count_eq_zero_of_not_mem this]

theorem recent_after_invariant (qs : List String) :
    (recent_after qs).Nodup ∧ (recent_after qs).length ≤ 10 := by
  rw [recent_after]
  suffices h : ∀ l : List String, l.Nodup → l.length ≤ 10 →
      (qs.foldl (fun acc q => addRecentSearch q acc) l).Nodup ∧
      (qs.foldl (fun acc q => addRecentSearch q acc) l).length ≤ 10 by
    exact h [] List.nodup_nil (by simp)
  induction qs with
  | nil => intro l h1 h2; exact ⟨h1, h2⟩
  | cons q qs ih =>
    intro l h1 _
    rw [List.foldl_cons]
    exact ih _ (addRecentSearch_nodup q h1) (addRecentSearch_length q l)

theorem recent_after_append (qs : List String) (q : String) :
    recent_after (qs ++ [q]) = addRecentSearch q (recent_after qs) := by
  rw [recent_after, recent_after, List.foldl_append, List.foldl_cons, List.foldl_nil]

/-- C2: the claim states that the effective price is sale_price exactly
when is_on_sale is true and sale_price is present and valid, and
base_price in every other case.  The FoodXScreen price row instead shows
sale_price whenever it is present: at the concrete offer with
is_on_sale false, base price 2.00 and a stale sale_price 1.00, the screen
displays 1.00 while the resolver contract of the spec yields 2.00. -/
theorem c2_sale_price_display_bug :
    displayed_price ⟨1, 1, 200, false, some 100, true⟩ = 100 ∧
    effective_price ⟨1, 1, 200, false, some 100, true⟩ = .ok 200 ∧
    displayed_price ⟨1, 1, 200, false, some 100, true⟩ ≠ 200 := by decide

/-- C9: the Pantry screen estimated total equals the fixed two-decimal
formatting of the sum over items of lowest price times quantity; an item
whose product has no lowest_price contributes exactly zero; an empty or
absent item list yields the string 0.00. -/
theorem c9_getTotalCost (l : List PantryItem) :
    getTotalCost (some l) = format_price ((l.map pantry_contribution).sum) ∧
    (∀ it : PantryItem, it.lowest_price = none → pantry_contribution it = 0) ∧
    getTotalCost (some []) = "0.00" ∧ getTotalCost none = "0.00" := by
  refine ⟨?_, ?_, by decide, rfl⟩
  · simp only [getTotalCost]
    rw [pantry_foldl_sum, zero_add]
  · intro it h
    rw [pantry_contribution, h]
    simp

theorem c9_witness :
    getTotalCost (some [⟨2, some 150⟩, ⟨5, none⟩]) = format_price 300 ∧
    pantry_contribution ⟨5, none⟩ = 0 :=
  ⟨(c9_getTotalCost [⟨2, some 150⟩, ⟨5, none⟩]).1.trans (by decide),
   (c9_getTotalCost []).2.1 ⟨5, none⟩ rfl⟩

/-- C10: after any sequence of addRecentSearch calls the store holds no
duplicates and at most 10 entries; adding any query puts it first with
exactly one copy; the last added query is the first element. -/
theorem c10_addRecentSearch (qs : List String) :
    (recent_after qs).Nodup ∧ (recent_after qs).length ≤ 10 ∧
    (∀ q : String, (addRecentSearch q (recent_after qs)).head? = some q ∧
      (addRecentSearch q (recent_after qs)).count q = 1) ∧
    (∀ q : String, (recent_after (qs ++ [q])).head? = some q) :=
  ⟨(recent_after_invariant qs).1, (recent_after_invariant qs).2,
   fun q => ⟨addRecentSearch_head q _, addRecentSearch_count q _⟩,
   fun q => by rw [recent_after_append]; exact addRecentSearch_head q _⟩

/-- C4: the comparison fails with EmptyComparisonError exactly when no
retailer can fulfill any list item; an empty shopping list always fails
that way; when some retailer has a usable offer for some listed item, a
non-empty ranked list is returned. -/
theorem c4_empty_comparison (items : List ShoppingListItem) (offers : List Offer)
    (names : Nat → String) :
    (compare_prices items offers names = .error ⟨⟩ ↔
      ∀ rid : Nat, available_items items offers rid = 0) ∧
    (items = [] → compare_prices items offers names = .error ⟨⟩) ∧
    (wf_offers offers →
      (∃ it ∈ items, ∃ o ∈ offers, o.product_id = it.product_id ∧ usable_offer o = true) →
      ∃ l, compare_prices items offers names = .ok l ∧ l ≠ []) := by
  refine ⟨compare_prices_error_iff.trans build_scorecards_eq_nil_iff, ?_, ?_⟩
  · rintro rfl
    rw [compare_prices_error_iff, build_scorecards_eq_nil_iff]
    intro rid
    rfl
  · rintro hwf ⟨it, hit, o, ho, hp, hu⟩
    have hpos : 0 < available_items items offers o.retailer_id :=
      available_items_pos hwf hit ho rfl hp hu
    have hne : build_scorecards items offers names ≠ [] := by
      intro hnil
      rw [build_scorecards_eq_nil_iff] at hnil
      have := hnil o.retailer_id
      omega
    refine ⟨set_flags ((build_scorecards items offers names).insertionSort rank_le),
      compare_prices_ok_iff.mpr ⟨hne, rfl⟩, ?_⟩
    intro hl
    apply hne
    rw [set_flags] at hl
    have hsort : (build_scorecards items offers names).insertionSort rank_le = [] := by
      rcases h : (build_scorecards items offers names).insertionSort rank_le with _ | ⟨a, m⟩
      · rfl
      · rw [h] at hl
        simp at hl
    have hp2 := List.perm_insertionSort rank_le (build_scorecards items offers names)
    rw [hsort] at hp2
    exact hp2.symm.eq_nil

/-- C5: an invalid offer (on sale with sale_price absent or above base
price) makes its item unavailable and free for that retailer without
aborting the run; every returned scorecard has a positive availability;
and a retailer all of whose offers are unusable never appears in the
result. -/
theorem c5_invalid_offer_exclusion (items : List ShoppingListItem) (offers : List Offer)
    (names : Nat → String) (l : List Scorecard)
    (hok : compare_prices items offers names = .ok l) :
    (∀ s ∈ l, 0 < s.available_items) ∧
    (∀ rid : Nat, (∀ o ∈ offers, o.retailer_id = rid → usable_offer o = false) →
      ∀ s ∈ l, s.retailer_id ≠ rid) ∧
    (∀ (rid : Nat) (it : ShoppingListItem) (o : Offer),
      offer_for offers rid it.product_id = some o →
      o.is_on_sale = true →
      (o.sale_price = none ∨ ∃ sp, o.sale_price = some sp ∧ o.price < sp) →
      item_available offers rid it = false ∧ item_cost offers rid it = 0) := by
  refine ⟨?_, ?_, ?_⟩
  · intro s hs
    have h := (compare_ok_fields hok hs).2.2.2.2
    omega
  · intro rid hall s hs heq
    obtain ⟨rid', hrid', h0, rfl⟩ := compare_ok_mem hok hs
    apply h0
    have heq' : rid' = rid := heq
    rw [heq', available_items, List.countP_eq_zero]
    intro it hit hav
    obtain ⟨o, hof, hu⟩ := item_available_iff.mp hav
    obtain ⟨ho, hr, -⟩ := offer_for_eq_some hof
    have := hall o ho hr
    rw [this] at hu
    exact Bool.false_ne_true hu
  · intro rid it o hof hsale hbad
    have hu : usable_offer o = false :=
      usable_offer_false_of_error (effective_price_error_of hsale hbad)
    constructor
    · rw [item_available, hof]
      exact hu
    · rw [item_cost, hof]
      simp [hu]

theorem c4_witness :
    compare_prices [] offers_a names_a = .error ⟨⟩ ∧
    (∃ l, compare_prices items_a offers_a names_a = .ok l ∧ l ≠ []) :=
  ⟨(c4_empty_comparison [] offers_a names_a).2.1 rfl,
   (c4_empty_comparison items_a offers_a names_a).2.2 (by decide) (by decide)⟩

theorem c5_witness :
    (∀ s ∈ out_b, 0 < s.available_items) ∧
    (∀ s ∈ out_b, s.retailer_id ≠ 9) ∧
    (item_available offers_b 9 ⟨1, 1⟩ = false ∧ item_cost offers_b 9 ⟨1, 1⟩ = 0) :=
  have h := c5_invalid_offer_exclusion items_b offers_b names_a out_b (by decide)
  ⟨h.1, h.2.1 9 (by decide),
   h.2.2 9 ⟨1, 1⟩ ⟨1, 9, 100, true, none, true⟩ (by decide) rfl (Or.inl rfl)⟩

/-- C6: every returned scorecard carries the rounded completeness
percentage round(100 available / total, 1) (stated in tenths: the tenths
value equals the rounding of 1000 available / total) and the percentage
lies in the interval from 0 to 100; an empty shopping list yields
completeness 0 and total cost 0 for every retailer instead of a division
by zero. -/
theorem c6_completeness_formula (items : List ShoppingListItem) (offers : List Offer)
    (names : Nat → String) (l : List Scorecard) (s : Scorecard)
    (hok : compare_prices items offers names = .ok l) (hs : s ∈ l) :
    ((s.completeness_tenths : ℤ) =
      round ((1000 * (s.available_items : ℚ)) / (s.total_items : ℚ))) ∧
    (0 : ℚ) ≤ (s.completeness_tenths : ℚ) / 10 ∧
    (s.completeness_tenths : ℚ) / 10 ≤ 100 ∧
    (∀ a : Nat, completeness_tenths a 0 = 0) ∧
    (∀ (offs : List Offer) (rid : Nat),
      available_items [] offs rid = 0 ∧ total_cost [] offs rid = 0) := by
  obtain ⟨hav, htot, hct, -, hne⟩ := compare_ok_fields hok hs
  have hle : s.available_items ≤ items.length := by
    rw [hav]
    exact available_items_le_length _ _ _
  have hlen : items.length ≠ 0 := by
    intro h0
    rw [h0] at hle
    omega
  have h1000 : s.completeness_tenths ≤ 1000 := by
    rw [hct]
    exact completeness_tenths_le_1000 hle
  have h1000q : (s.completeness_tenths : ℚ) ≤ 1000 := by exact_mod_cast h1000
  refine ⟨?_, by positivity, by linarith, completeness_tenths_zero_total,
    fun offs rid => ⟨rfl, rfl⟩⟩
  rw [hct, htot]
  exact completeness_tenths_eq_round hlen

theorem c6_witness :
    ((card_bm.completeness_tenths : ℤ) =
      round ((1000 * (card_bm.available_items : ℚ)) / (card_bm.total_items : ℚ))) ∧
    (0 : ℚ) ≤ (card_bm.completeness_tenths : ℚ) / 10 ∧
    (card_bm.completeness_tenths : ℚ) / 10 ≤ 100 :=
  have h := c6_completeness_formula items_a offers_a names_a out_a card_bm
    (by decide) (by decide)
  ⟨h.1, h.2.1, h.2.2.1⟩

/-- C8: for a non-empty shopping list and non-empty offer snapshot with
nonnegative base prices, every returned scorecard satisfies
available_items at most total_items, total cost at least 0, and carries
the shopping list length as total_items. -/
theorem c8_scorecard_invariants (items : List ShoppingListItem) (offers : List Offer)
    (names : Nat → String) (l : List Scorecard) (s : Scorecard)
    (h1 : items ≠ []) (h2 : offers ≠ []) (hp : ∀ o ∈ offers, 0 ≤ o.price)
    (hok : compare_prices items offers names = .ok l) (hs : s ∈ l) :
    s.available_items ≤ s.total_items ∧ 0 ≤ s.total_cost ∧
    s.total_items = items.length := by
  obtain ⟨hav, htot, -, hcost, -⟩ := compare_ok_fields hok hs
  refine ⟨?_, ?_, htot⟩
  · rw [hav, htot]
    exact available_items_le_length _ _ _
  · rw [hcost]
    exact total_cost_nonneg hp

theorem c8_witness :
    card_bm.available_items ≤ card_bm.total_items ∧ 0 ≤ card_bm.total_cost ∧
    card_bm.total_items = items_a.length :=
  c8_scorecard_invariants items_a offers_a names_a out_a card_bm
    (by decide) (by decide) (by decide) (by decide) (by decide)

/-- C1: in every comparison result, is_most_complete holds exactly on the
scorecards whose completeness equals the maximum present in the result
set, is_cheapest holds exactly on the scorecards that are most complete
with the minimum total cost among the most complete ones, and is_cheapest
never holds outside the top completeness tier. -/
theorem c1_best_flags (items : List ShoppingListItem) (offers : List Offer)
    (names : Nat → String) (l : List Scorecard) (s : Scorecard)
    (hok : compare_prices items offers names = .ok l) (hs : s ∈ l) :
    (s.is_most_complete = true ↔
      (s.completeness_tenths : WithBot Nat) = max_completeness l) ∧
    (s.is_cheapest = true ↔ (s.is_most_complete = true ∧
      (s.total_cost : WithTop Int) =
        ((l.filter (fun t => t.is_most_complete)).map Scorecard.total_cost).minimum)) ∧
    (s.is_cheapest = true → s.is_most_complete = true) := by
  obtain ⟨hne, rfl⟩ := compare_prices_ok_iff.mp hok
  obtain ⟨t, ht, rfl⟩ := mem_set_flags.mp hs
  have hmax := max_completeness_set_flags
    ((build_scorecards items offers names).insertionSort rank_le)
  have hminlist :
      (((set_flags ((build_scorecards items offers names).insertionSort rank_le)).filter
          (fun t => t.is_most_complete)).map Scorecard.total_cost).minimum =
        min_top_cost ((build_scorecards items offers names).insertionSort rank_le) := by
    rw [set_flags_filter_most_complete, List.map_map, min_top_cost]
    rfl
  refine ⟨?_, ?_, ?_⟩
  · rw [flag_with_is_most_complete, flag_with_completeness', hmax]
    exact decide_eq_true_iff
  · rw [flag_with_is_cheapest, Bool.and_eq_true, flag_with_is_most_complete, hminlist,
      flag_with_total_cost']
    exact and_congr Iff.rfl decide_eq_true_iff
  · intro h
    rw [flag_with_is_cheapest, Bool.and_eq_true] at h
    rw [flag_with_is_most_complete]
    exact h.1

theorem c1_witness :
    (card_bm.is_most_complete = true ↔
      (card_bm.completeness_tenths : WithBot Nat) = max_completeness out_a) ∧
    (card_bm.is_cheapest = true → card_bm.is_most_complete = true) :=
  have h := c1_best_flags items_a offers_a names_a out_a card_bm (by decide) (by decide)
  ⟨h.1, h.2.2⟩

/-- C3: the returned list is sorted by the ranking order (best first); the
ranking order is total; two scorecards below each other in both directions
share the whole sort key and in particular the retailer id; and the
retailer ids of one result are pairwise distinct, so the order determines
the relative position of any two distinct returned scorecards. -/
theorem c3_total_order (items : List ShoppingListItem) (offers : List Offer)
    (names : Nat → String) (l : List Scorecard)
    (hok : compare_prices items offers names = .ok l) :
    List.Sorted rank_le l ∧
    (∀ a b : Scorecard, rank_le a b ∨ rank_le b a) ∧
    (∀ a b : Scorecard, rank_le a b → rank_le b a →
      rank_key a = rank_key b ∧ a.retailer_id = b.retailer_id) ∧
    (l.map Scorecard.retailer_id).Nodup := by
  have hnodup := compare_ok_ids_nodup hok
  obtain ⟨hne, rfl⟩ := compare_prices_ok_iff.mp hok
  refine ⟨sorted_set_flags (List.sorted_insertionSort rank_le _), rank_le_total, ?_, hnodup⟩
  intro a b h1 h2
  have hk := rank_le_key_antisymm a b h1 h2
  refine ⟨hk, ?_⟩
  have := congrArg (fun p => p.2.2.2) hk
  simpa [rank_key] using this

theorem c3_witness :
    List.Sorted rank_le out_a ∧ (out_a.map Scorecard.retailer_id).Nodup :=
  have h := c3_total_order items_a offers_a names_a out_a (by decide)
  ⟨h.1, h.2.2.2⟩

/-- C7: the comparison is a pure function of its inputs - running it twice
on the same data gives the same output - and its output does not depend on
the enumeration order of the offer snapshot: any permutation of a
well-formed snapshot produces the identical ranked list. -/
theorem c7_deterministic (items : List ShoppingListItem) (offers offers' : List Offer)
    (names : Nat → String) (hwf : wf_offers offers) (hperm : offers ~ offers') :
    compare_prices items offers names = compare_prices items offers names ∧
    compare_prices items offers names = compare_prices items offers' names :=
  ⟨rfl, by
    simp only [compare_prices]
    rw [build_scorecards_perm hperm hwf]⟩

theorem c7_witness :
    compare_prices items_a offers_a names_a =
      compare_prices items_a offers_a.reverse names_a :=
  (c7_deterministic items_a offers_a offers_a.reverse names_a (by decide)
    (List.reverse_perm offers_a).symm).2

end FoodX
